import Mathlib

/-!
Verification of the static-site build script `build_posts.py`.

Python strings are modelled as `List Char` (Python strings are sequences of
Unicode code points; `Char.val` is the code point).  Python dicts with string
keys and values are modelled as insertion-ordered association lists.  File
system effects are modelled by pure functions from the list of source files
(filename, content) to the produced artifacts.
-/

namespace BuildPosts

/-- A Python string: a sequence of Unicode code points. -/
abbrev PyStr := List Char

/-- A Python dict with string keys and string values, insertion ordered. -/
abbrev Dict := List (PyStr × PyStr)

/-- The characters stripped by Python `str.strip()` (ASCII whitespace;
the frontmatter of this project is ASCII). -/
def pyWhite (c : Char) : Bool :=
  c = ' ' || c = '\t' || c = '\n' || c = '\r' || c = '\x0b' || c = '\x0c'

/-- Python `s.strip()`: remove leading and trailing whitespace. -/
def pyStrip (s : PyStr) : PyStr :=
  ((s.dropWhile pyWhite).reverse.dropWhile pyWhite).reverse

/-- Python `s.split('\n')`: split on every newline, keeping empty pieces
(`"".split('\n') == [""]`). -/
def splitOnNl : PyStr → List PyStr
  | [] => [[]]
  | c :: t =>
    if c = '\n' then [] :: splitOnNl t
    else (c :: (splitOnNl t).headI) :: (splitOnNl t).tail

/-- Python `s.split(sep, 1)` for a one-character separator, as an option:
`some (before, after)` at the first occurrence of `c`, `none` if `c ∉ s`.
Also models the test `c in s` (by `isSome`). -/
def splitFirst (c : Char) : PyStr → Option (PyStr × PyStr)
  | [] => none
  | a :: t =>
    if a = c then some ([], t)
    else (splitFirst c t).map (fun p => (a :: p.1, p.2))

/-- Python `d[k] = v` on an insertion-ordered dict: overwrite in place if the
key is present, otherwise append at the end. -/
def dictInsert (k v : PyStr) : Dict → Dict
  | [] => [(k, v)]
  | (k1, v1) :: t => if k1 = k then (k, v) :: t else (k1, v1) :: dictInsert k v t

/-- Python `d.get(k)`: the value bound to `k`, if any. -/
def dictLookup (k : PyStr) : Dict → Option PyStr
  | [] => none
  | (k1, v1) :: t => if k1 = k then some v1 else dictLookup k t

/-- Python `d.get(k, default)`. -/
def dictGet (k : PyStr) (d : Dict) (dflt : PyStr) : PyStr :=
  (dictLookup k d).getD dflt

/-- Index of the first occurrence of `pat` in `s`, if any (the position at
which a non-greedy regex search succeeds). -/
def firstOccur (pat : PyStr) : PyStr → Option Nat
  | [] => if pat.isPrefixOf ([] : PyStr) then some 0 else none
  | c :: t =>
    if pat.isPrefixOf (c :: t) then some 0
    else (firstOccur pat t).map (· + 1)

/-- The frontmatter loop of `parse_frontmatter` (source lines 27-31): fold the
lines of the frontmatter block into a dict, splitting each colon-containing
line at its first colon and stripping key and value; lines without a colon are
skipped. -/
def parseMetaLines (ft : PyStr) : Dict :=
  (splitOnNl ft).foldl
    (fun m line =>
      match splitFirst ':' line with
      | some kv => dictInsert (pyStrip kv.1) (pyStrip kv.2) m
      | none => m)
    []

/-- Model of `re.match(r'^---\n(.*?)\n---\n(.*)', content, re.DOTALL)`
(source line 19): anchored at the start, `content` must begin with the line
`---`; the non-greedy group 1 ends at the first later occurrence of the
five-character substring `"\n---\n"`; group 2 is everything after it. -/
def pymatch (content : PyStr) : Option (PyStr × PyStr) :=
  if ("---\n".data).isPrefixOf content then
    let rest := content.drop 4
    match firstOccur ("\n---\n".data) rest with
    | some k => some (rest.take k, rest.drop (k + 5))
    | none => none
  else none

/-- `parse_frontmatter` (source lines 13-33): returns `(metadata, body)`. -/
def parse_frontmatter (content : PyStr) : Dict × PyStr :=
  if ("---".data).isPrefixOf content then
    match pymatch content with
    | some ftbody => (parseMetaLines ftbody.1, ftbody.2)
    | none => ([], content)
  else ([], content)

/-- A prefix is at most as long as the whole list. -/
theorem isPrefixOf_length_le {p s : PyStr} (h : p.isPrefixOf s = true) :
    p.length ≤ s.length := by
  induction p generalizing s with
  | nil => simp
  | cons a t ih =>
    cases s with
    | nil => simp [List.isPrefixOf] at h
    | cons b u =>
      simp only [List.isPrefixOf, Bool.and_eq_true] at h
      simpa using Nat.succ_le_succ (ih h.2)

/-- A found occurrence of `pat` fits inside `s`. -/
theorem firstOccur_bound {pat s : PyStr} {k : Nat} (h : firstOccur pat s = some k) :
    k + pat.length ≤ s.length := by
  induction s generalizing k with
  | nil =>
    simp only [firstOccur] at h
    split at h
    · next hp =>
      cases h
      simpa using isPrefixOf_length_le hp
    · cases h
  | cons c t ih =>
    simp only [firstOccur] at h
    split at h
    · next hp =>
      cases h
      simpa using isPrefixOf_length_le hp
    · match h2 : firstOccur pat t with
      | none => rw [h2] at h; cases h
      | some j =>
        rw [h2] at h
        simp only [Option.map_some'] at h
        cases h
        have := ih h2
        simp only [List.length_cons]
        omega

/-- Fuel-driven worker for `pyReplace`: every found occurrence consumes at
least one character, so `s.length` steps always suffice; structural recursion
on the fuel keeps the function kernel-reducible. -/
def pyReplaceFuel (p0 : Char) (prest rep : PyStr) : Nat → PyStr → PyStr
  | 0, s => s
  | fuel + 1, s =>
    match firstOccur (p0 :: prest) s with
    | none => s
    | some k =>
      s.take k ++ rep ++
        pyReplaceFuel p0 prest rep fuel (s.drop (k + (prest.length + 1)))

/-- Python `s.replace(pat, rep)` for a nonempty pattern `p0 :: prest`:
replace every occurrence, scanning left to right without overlap. -/
def pyReplace (p0 : Char) (prest rep : PyStr) (s : PyStr) : PyStr :=
  pyReplaceFuel p0 prest rep s.length s

/-- Python `s.split(sep, maxsplit)` for a one-character separator. -/
def pySplit (c : Char) : Nat → PyStr → List PyStr
  | 0, s => [s]
  | m + 1, s =>
    match splitFirst c s with
    | none => [s]
    | some p => p.1 :: pySplit c m p.2

/-- `get_slug_from_filename` (source lines 35-43): `filename.replace('.md', '')`,
then split on `-` with `maxsplit=3`; if at least 4 parts result, rejoin the
parts after the third hyphen, else the whole stem. -/
def get_slug_from_filename (filename : PyStr) : PyStr :=
  let base := pyReplace '.' ("md".data) [] filename
  let parts := pySplit '-' 3 base
  if parts.length ≥ 4 then List.intercalate ("-".data) (parts.drop 3) else base

/-- The text after the n-th occurrence of `c`, if `c` occurs at least n times. -/
def afterNth (c : Char) : Nat → PyStr → Option PyStr
  | 0, s => some s
  | n + 1, s =>
    match splitFirst c s with
    | none => none
    | some p => afterNth c n p.2

/-- Spec-side reading of the slug rule applied to a stem: everything after the
third hyphen if the stem has at least three hyphens, else the stem itself. -/
def slugOfStem (base : PyStr) : PyStr :=
  match afterNth '-' 3 base with
  | some r => r
  | none => base

/-- Modelled from the claim's words for C2: strip the `.md` suffix (only a
trailing `.md`), then apply the split-and-rejoin rule. -/
def claimSlugC2 (f : PyStr) : PyStr :=
  let stem := if (".md".data).isPrefixOf (f.reverse.take 3).reverse then
    f.take (f.length - 3) else f
  let parts := pySplit '-' 3 stem
  if parts.length ≥ 4 then List.intercalate ("-".data) (parts.drop 3) else stem

/-- The split-and-rejoin rule of the source agrees with taking everything
after the third hyphen. -/
theorem pySplit_slug_eq (s : PyStr) :
    (if (pySplit '-' 3 s).length ≥ 4 then
        List.intercalate ("-".data) ((pySplit '-' 3 s).drop 3)
      else s) = slugOfStem s := by
  match h1 : splitFirst '-' s with
  | none => simp [pySplit, slugOfStem, afterNth, h1]
  | some p1 =>
  match h2 : splitFirst '-' p1.2 with
  | none => simp [pySplit, slugOfStem, afterNth, h1, h2]
  | some p2 =>
  match h3 : splitFirst '-' p2.2 with
  | none => simp [pySplit, slugOfStem, afterNth, h1, h2, h3]
  | some p3 =>
    simp [pySplit, slugOfStem, afterNth, h1, h2, h3, List.intercalate]

/-- Template text of `generate_html_file` before the first `{title}` hole. -/
def tplHead : PyStr :=
  ("<!DOCTYPE html>\n<html lang=\"en\">\n<head>\n    <meta charset=\"UTF-8\">\n    <meta name=\"viewport\" content=\"width=device-width, initial-scale=1.0\">\n    <title>").data

/-- Template text between the `{title}` holes. -/
def tplMid1 : PyStr :=
  (" - Jack Wittmayer</title>\n    <link rel=\"stylesheet\" href=\"../styles.css\">\n</head>\n<body>\n    <div class=\"container\">\n        <nav class=\"navbar\">\n            <h1><a href=\"/\">Jack Wittmayer</a></h1>\n            <ul>\n                <li><a href=\"/about.html\">About</a></li>\n            </ul>\n        </nav>\n\n        <main>\n            <article class=\"blog-post\">\n                <h1>").data

/-- Template text between the second `{title}` hole and the `{date}` hole. -/
def tplMid2 : PyStr :=
  ("</h1>\n                <p class=\"post-date\">").data

/-- Template text between the `{date}` hole and the `{body_html}` hole. -/
def tplMid3 : PyStr :=
  ("</p>\n\n                ").data

/-- Template text after the `{body_html}` hole. -/
def tplTail : PyStr :=
  ("\n            </article>\n        </main>\n\n        <footer>\n            <p>© 2025 Jack Wittmayer</p>\n        </footer>\n    </div>\n</body>\n</html>").data

/-- `generate_html_file` (source lines 45-79): the f-string template with the
holes `{title}` (twice), `{date}` and `{body_html}` filled in.  The `slug`
parameter appears in the Python signature but in no hole of the template. -/
def generate_html_file (title date body_html slug : PyStr) : PyStr :=
  tplHead ++ title ++ tplMid1 ++ title ++ tplMid2 ++ date ++ tplMid3 ++
    body_html ++ tplTail

/-- Fuel-driven worker for `splitOnPat`; as with `pyReplaceFuel`, `s.length`
steps always suffice. -/
def splitOnPatFuel (p0 : Char) (prest : PyStr) : Nat → PyStr → List PyStr
  | 0, s => [s]
  | fuel + 1, s =>
    match firstOccur (p0 :: prest) s with
    | none => [s]
    | some k =>
      s.take k :: splitOnPatFuel p0 prest fuel (s.drop (k + (prest.length + 1)))

/-- Split `s` on every occurrence of the nonempty pattern `p0 :: prest`,
scanning left to right without overlap. -/
def splitOnPat (p0 : Char) (prest : PyStr) (s : PyStr) : List PyStr :=
  splitOnPatFuel p0 prest s.length s

/-- Join the pieces of a `**`-split back together, replacing the separators
alternately with an opening and a closing strong tag. -/
def altJoin : Bool → List PyStr → PyStr
  | _, [] => []
  | _, [x] => x
  | false, x :: rest => x ++ ("<strong>".data) ++ altJoin true rest
  | true, x :: rest => x ++ ("</strong>".data) ++ altJoin false rest

/-- Modelled from the spec: the external markdown renderer (`markdown.markdown`
from the `markdown` library, which is not part of this repository).  Section
4.3 of the spec treats it as a collaborator with the contract "markdown in,
semantically equivalent HTML fragment out"; this model covers what the claims
exercise: a single paragraph with `**strong**` emphasis rendered as
`<p>...<strong>...</strong>...</p>`. -/
def markdown_markdown (body : PyStr) : PyStr :=
  ("<p>".data) ++ altJoin false (splitOnPat '*' ("*".data) body) ++ ("</p>".data)

/-- Whether `pat` occurs as a contiguous substring of `s`. -/
def containsSub (pat s : PyStr) : Bool :=
  (firstOccur pat s).isSome

/-- Lower-case hexadecimal digit, as produced by Python's json encoder. -/
def hexDigit (n : Nat) : Char :=
  if n < 10 then Char.ofNat ('0'.toNat + n) else Char.ofNat ('a'.toNat + (n - 10))

/-- Four lower-case hex digits. -/
def hex4 (n : Nat) : PyStr :=
  [hexDigit (n / 4096 % 16), hexDigit (n / 256 % 16), hexDigit (n / 16 % 16),
   hexDigit (n % 16)]

/-- One character escaped as by Python `json.dumps` (default `ensure_ascii`):
quote, backslash and the short control escapes, `\u00xx` for other control
characters, printable ASCII verbatim, `\uxxxx` (with a surrogate pair beyond
the BMP) for everything else. -/
def jsonEscapeChar (c : Char) : PyStr :=
  if c = '"' then ("\\\"".data)
  else if c = '\\' then ("\\\\".data)
  else if c = '\n' then ("\\n".data)
  else if c = '\r' then ("\\r".data)
  else if c = '\t' then ("\\t".data)
  else if c = '\x08' then ("\\b".data)
  else if c = '\x0c' then ("\\f".data)
  else if c.toNat < 32 then '\\' :: 'u' :: hex4 c.toNat
  else if c.toNat ≤ 126 then [c]
  else if c.toNat ≤ 65535 then '\\' :: 'u' :: hex4 c.toNat
  else
    ('\\' :: 'u' :: hex4 (55296 + (c.toNat - 65536) / 1024)) ++
      ('\\' :: 'u' :: hex4 (56320 + (c.toNat - 65536) % 1024))

/-- A whole string escaped as by Python `json.dumps`. -/
def jsonEscape (s : PyStr) : PyStr :=
  (s.map jsonEscapeChar).flatten

/-- A JSON string literal: the escaped text in double quotes. -/
def jsonStrLit (v : PyStr) : PyStr :=
  '"' :: (jsonEscape v ++ ("\"".data))

/-- `n` spaces. -/
def spacesN (n : Nat) : PyStr :=
  List.replicate n ' '

/-- A string-valued dict rendered as by `json.dumps(d, indent=2)` when the
dict sits at indentation `ind`: members one per line at `ind + 2`, separated
by `",\n"`, with `": "` between key and value. -/
def jsonObjAt (ind : Nat) (d : Dict) : PyStr :=
  if d = [] then ("\x7b\x7d".data)
  else
    ("\x7b\n".data) ++
      List.intercalate ((",\n".data))
        (d.map (fun kv => spacesN (ind + 2) ++ jsonStrLit kv.1 ++ ((": ".data) ++ jsonStrLit kv.2))) ++
      ("\n".data) ++ spacesN ind ++ ("\x7d".data)

/-- `generate_posts_json` (source lines 102-112): the text written to
`posts.json`, i.e. `json.dumps(posts_list, indent=2)` for the list of
string-valued dicts collected by `build_posts` (the file write is modelled by
returning the written text). -/
def generate_posts_json (posts_list : List Dict) : PyStr :=
  if posts_list = [] then ("[]".data)
  else
    ("[\n".data) ++
      List.intercalate ((",\n".data))
        (posts_list.map (fun d => ("  ".data) ++ jsonObjAt 2 d)) ++
      ("\n]".data)

/-- The spec's PostRecord: the durable output unit
`(title, date, slug, description)`. -/
structure PostRecord where
  title : PyStr
  date : PyStr
  slug : PyStr
  description : PyStr
deriving DecidableEq

/-- The dict `build_posts` appends for a record (source lines 154-159). -/
def dictOfRecord (r : PostRecord) : Dict :=
  [(("title".data), r.title), (("date".data), r.date), (("slug".data), r.slug),
   (("description".data), r.description)]

/-- Modelled from the spec's words (section 6): one member line of an index
object: 4-space indented, the quoted key, a colon and a space, the quoted
value. -/
def specFieldLine (key value : PyStr) : PyStr :=
  spacesN 4 ++ (jsonStrLit key ++ ((": ".data) ++ jsonStrLit value))

/-- Modelled from the spec's words (section 6): one element of the aggregate
index file: a 2-space-indented JSON object with exactly the fields `title`,
`date`, `slug`, `description`, in that order, one per line, separated by
commas. -/
def specObjLines (r : PostRecord) : PyStr :=
  ("  ".data) ++ (("\x7b\n".data) ++
    (specFieldLine ("title".data) r.title ++ ((",\n".data) ++
    (specFieldLine ("date".data) r.date ++ ((",\n".data) ++
    (specFieldLine ("slug".data) r.slug ++ ((",\n".data) ++
    (specFieldLine ("description".data) r.description ++
      (("\n".data) ++ (spacesN 2 ++ ("\x7d".data)))))))))))

/-- Modelled from the spec's words (section 6): the aggregate index file: a
JSON array, 2-space indented, of the posts' objects in order. -/
def specIndexJson (rs : List PostRecord) : PyStr :=
  ("[\n".data) ++ List.intercalate ((",\n".data)) (rs.map specObjLines) ++
    ("\n]".data)

/-- Model of `posts_dir.glob('*.md')` on a directory listing: keep the
entries whose filename ends in `.md`. -/
def filterMd (entries : List (PyStr × PyStr)) : List (PyStr × PyStr) :=
  entries.filter (fun e => ((".md".data).reverse).isPrefixOf e.1.reverse)

/-- Python string `<`: lexicographic comparison of code points. -/
def lexLtB : PyStr → PyStr → Bool
  | [], [] => false
  | [], _ :: _ => true
  | _ :: _, [] => false
  | a :: s, b :: t =>
    if a.toNat < b.toNat then true
    else if b.toNat < a.toNat then false
    else lexLtB s t

/-- Insert a file into a list that is sorted by filename in descending
order, keeping it sorted. -/
def insertByNameDesc (x : PyStr × PyStr) :
    List (PyStr × PyStr) → List (PyStr × PyStr)
  | [] => [x]
  | y :: t => if lexLtB y.1 x.1 then x :: y :: t else y :: insertByNameDesc x t

/-- Model of `sorted(..., reverse=True)` (source line 126): sort the matched
files by filename in descending lexicographic order (filenames in one
directory are distinct, so any sorting algorithm gives the same list). -/
def sortByNameDesc : List (PyStr × PyStr) → List (PyStr × PyStr)
  | [] => []
  | x :: t => insertByNameDesc x (sortByNameDesc t)

/-- The per-file body of the `build_posts` loop (source lines 126-159):
parse the frontmatter, take `title`/`date`/`description` with their defaults,
render the body, derive the slug, and produce the written HTML file
(filename and content) together with the metadata dict appended to
`posts_list`. -/
def processFile (f : PyStr × PyStr) : (PyStr × PyStr) × Dict :=
  let mb := parse_frontmatter f.2
  let title := dictGet ("title".data) mb.1 ("Untitled".data)
  let date := dictGet ("date".data) mb.1 []
  let description := dictGet ("description".data) mb.1 []
  let body_html := markdown_markdown mb.2
  let slug := get_slug_from_filename f.1
  ((slug ++ (".html".data), generate_html_file title date body_html slug),
   [(("title".data), title), (("date".data), date), (("slug".data), slug),
    (("description".data), description)])

/-- The artifacts of one run of `build_posts`. -/
structure BuildOutput where
  htmlFiles : List (PyStr × PyStr)
  postsList : List Dict
  postsJson : Option PyStr
deriving DecidableEq

/-- `build_posts` (source lines 114-166) as a pure function from the source
directory listing to the produced artifacts: glob `*.md`, sort descending by
filename, process each file (writing one HTML file per post), and write
`posts.json` only if `posts_list` is non-empty (`if posts_list:`). -/
def build_posts (entries : List (PyStr × PyStr)) : BuildOutput :=
  let files := sortByNameDesc (filterMd entries)
  let results := files.map processFile
  let posts_list := results.map Prod.snd
  { htmlFiles := results.map Prod.fst
  , postsList := posts_list
  , postsJson :=
      if posts_list = [] then none else some (generate_posts_json posts_list) }

/-- Spec-side reading of one frontmatter line: the trimmed value if the line
contains a colon and its trimmed key is `k`. -/
def lineVal (k : PyStr) (line : PyStr) : Option PyStr :=
  match splitFirst ':' line with
  | some kv => if pyStrip kv.1 = k then some (pyStrip kv.2) else none
  | none => none

/-- Spec-side: the trimmed value of the last line of `lines` whose trimmed
key is `k`, if any. -/
def lastColonValue (k : PyStr) : List PyStr → Option PyStr
  | [] => none
  | line :: rest =>
    match lastColonValue k rest with
    | some v => some v
    | none => lineVal k line

/-- The PostRecord of one source file: frontmatter fields with their
defaults, and the filename-derived slug. -/
def recordOf (f : PyStr × PyStr) : PostRecord :=
  let mb := parse_frontmatter f.2
  { title := dictGet ("title".data) mb.1 ("Untitled".data)
  , date := dictGet ("date".data) mb.1 []
  , slug := get_slug_from_filename f.1
  , description := dictGet ("description".data) mb.1 [] }

/-- A list is a prefix of itself followed by anything. -/
theorem isPrefixOf_self_append (p t : PyStr) : p.isPrefixOf (p ++ t) = true := by
  induction p with
  | nil => simp [List.isPrefixOf]
  | cons a s ih => simp [List.isPrefixOf, ih]

/-- A Boolean prefix yields a decomposition of the whole list. -/
theorem isPrefixOf_decompose {p s : PyStr} (h : p.isPrefixOf s = true) :
    s = p ++ s.drop p.length := by
  induction p generalizing s with
  | nil => simp
  | cons a t ih =>
    cases s with
    | nil => simp [List.isPrefixOf] at h
    | cons b u =>
      simp only [List.isPrefixOf, Bool.and_eq_true, beq_iff_eq] at h
      obtain ⟨rfl, h2⟩ := h
      simpa using ih h2

/-- The prefix test only looks at the first `p.length` elements. -/
theorem isPrefixOf_append_of_le {p X : PyStr} (Y : PyStr)
    (h : p.length ≤ X.length) : p.isPrefixOf (X ++ Y) = p.isPrefixOf X := by
  induction p generalizing X with
  | nil => simp [List.isPrefixOf]
  | cons a t ih =>
    cases X with
    | nil => simp at h
    | cons b u =>
      simp only [List.length_cons, Nat.succ_le_succ_iff] at h
      simp [List.isPrefixOf, ih h]

/-- If the prefix test succeeds, `firstOccur` reports position 0. -/
theorem firstOccur_of_isPrefixOf {pat s : PyStr} (h : pat.isPrefixOf s = true) :
    firstOccur pat s = some 0 := by
  cases s <;> simp [firstOccur, h]

/-- A found occurrence decomposes the string around the pattern. -/
theorem firstOccur_decompose {pat s : PyStr} {k : Nat}
    (h : firstOccur pat s = some k) :
    s = s.take k ++ pat ++ s.drop (k + pat.length) := by
  induction s generalizing k with
  | nil =>
    simp only [firstOccur] at h
    split at h
    · next hp =>
      cases h
      have := isPrefixOf_decompose hp
      simpa using this.symm
    · cases h
  | cons c t ih =>
    simp only [firstOccur] at h
    split at h
    · next hp =>
      cases h
      have hd := isPrefixOf_decompose hp
      simpa using hd
    · match h2 : firstOccur pat t with
      | none => rw [h2] at h; cases h
      | some j =>
        rw [h2] at h
        simp only [Option.map_some'] at h
        cases h
        have ht := ih h2
        have hdrop : (c :: t).drop (j + 1 + pat.length) = t.drop (j + pat.length) := by
          rw [show j + 1 + pat.length = (j + pat.length) + 1 by omega,
            List.drop_succ_cons]
        rw [List.take_succ_cons, hdrop]
        calc c :: t = c :: (t.take j ++ pat ++ t.drop (j + pat.length)) := by
              rw [← ht]
          _ = c :: t.take j ++ pat ++ t.drop (j + pat.length) := by simp

/-- Unfolding equation of `firstOccur` on a nonempty string. -/
theorem firstOccur_cons (pat : PyStr) (c : Char) (t : PyStr) :
    firstOccur pat (c :: t) =
      if pat.isPrefixOf (c :: t) = true then some 0
      else (firstOccur pat t).map (· + 1) := rfl

/-- If the pattern (which ends in its last character `z`) does not occur in
`s ++ front` where `front` is the pattern without `z`, then in
`s ++ pat ++ t` its first occurrence is exactly at position `s.length`. -/
theorem firstOccur_at_append {front : PyStr} {z : Char} (s t : PyStr)
    (hno : firstOccur (front ++ [z]) (s ++ front) = none) :
    firstOccur (front ++ [z]) (s ++ (front ++ [z]) ++ t) = some s.length := by
  induction s with
  | nil =>
    simpa using firstOccur_of_isPrefixOf (isPrefixOf_self_append (front ++ [z]) t)
  | cons c s2 ih =>
    rw [List.cons_append, firstOccur_cons] at hno
    have hsplit : (front ++ [z]).isPrefixOf (c :: (s2 ++ front)) = false ∧
        firstOccur (front ++ [z]) (s2 ++ front) = none := by
      by_cases hp : (front ++ [z]).isPrefixOf (c :: (s2 ++ front)) = true
      · rw [if_pos hp] at hno; cases hno
      · refine ⟨?_, ?_⟩
        · revert hp
          cases (front ++ [z]).isPrefixOf (c :: (s2 ++ front)) <;> simp
        · rw [if_neg hp] at hno
          cases hfo : firstOccur (front ++ [z]) (s2 ++ front) with
          | none => rfl
          | some j => simp at hno; rw [← hfo]; exact hno
    obtain ⟨hp, hno2⟩ := hsplit
    have hlen : (front ++ [z]).length ≤ (c :: (s2 ++ front)).length := by
      simp
    have hp2 : (front ++ [z]).isPrefixOf (c :: (s2 ++ (front ++ [z]) ++ t))
        = false := by
      have hre : c :: (s2 ++ (front ++ [z]) ++ t)
          = (c :: (s2 ++ front)) ++ ([z] ++ t) := by
        simp
      rw [hre, isPrefixOf_append_of_le _ hlen]
      exact hp
    have hshape : (c :: s2) ++ (front ++ [z]) ++ t
        = c :: (s2 ++ (front ++ [z]) ++ t) := by
      simp
    rw [hshape, firstOccur_cons,
      if_neg (by rw [hp2]; exact Bool.false_ne_true), ih hno2]
    simp

/-- Splitting never produces the empty list of lines. -/
theorem splitOnNl_ne_nil (s : PyStr) : splitOnNl s ≠ [] := by
  cases s with
  | nil => simp [splitOnNl]
  | cons c t =>
    simp only [splitOnNl]
    split <;> simp

/-- Unfolding: a leading newline opens with an empty line. -/
theorem splitOnNl_nl (t : PyStr) : splitOnNl ('\n' :: t) = [] :: splitOnNl t := by
  simp [splitOnNl]

/-- Unfolding: a non-newline character extends the first line. -/
theorem splitOnNl_cons_ne {c : Char} (h : c ≠ '\n') (t : PyStr) :
    splitOnNl (c :: t) = (c :: (splitOnNl t).headI) :: (splitOnNl t).tail := by
  simp [splitOnNl, h]

/-- A newline-free block before a newline is the first line of the split. -/
theorem splitOnNl_line (l B : PyStr) (h : '\n' ∉ l) :
    splitOnNl (l ++ '\n' :: B) = l :: splitOnNl B := by
  induction l with
  | nil => simpa using splitOnNl_nl B
  | cons c l2 ih =>
    have hc : c ≠ '\n' := fun he => h (he ▸ List.mem_cons_self c l2)
    have hl2 : '\n' ∉ l2 := fun hm => h (List.mem_cons_of_mem c hm)
    rw [List.cons_append, splitOnNl_cons_ne hc, ih hl2]
    simp

/-- A newline-free block enclosed between two newlines is a line of the
split, and not the first one. -/
theorem mem_tail_splitOnNl_mid (A l B : PyStr) (hl : '\n' ∉ l) :
    l ∈ (splitOnNl (A ++ '\n' :: (l ++ '\n' :: B))).tail := by
  induction A with
  | nil =>
    rw [List.nil_append, splitOnNl_nl, splitOnNl_line l B hl]
    simp
  | cons c A2 ih =>
    by_cases hc : c = '\n'
    · subst hc
      rw [List.cons_append, splitOnNl_nl, List.tail_cons]
      exact List.mem_of_mem_tail ih
    · rw [List.cons_append, splitOnNl_cons_ne hc, List.tail_cons]
      exact ih

/-- A string starting with the delimiter line decomposes below it. -/
theorem splitOnNl_dashes (r : PyStr) :
    splitOnNl (("---\n".data) ++ r) = ("---".data) :: splitOnNl r := by
  have he : ("---\n".data) ++ r = ("---".data) ++ '\n' :: r := rfl
  rw [he, splitOnNl_line _ _ (by decide)]

/-- Claim C5: for every input that does not begin with a `---` delimiter
line, and for every input that begins with the delimiter but in which a
second delimiter line is never found, `parse_frontmatter` returns empty
metadata and the original content unchanged as body. -/
theorem claim_C5_no_frontmatter_identity (content : PyStr)
    (h : (splitOnNl content).head? ≠ some ("---".data) ∨
      ("---".data) ∉ (splitOnNl content).tail) :
    parse_frontmatter content = ([], content) := by
  unfold parse_frontmatter
  by_cases h3 : ("---".data).isPrefixOf content = true
  · rw [if_pos h3]
    have hpm : pymatch content = none := by
      unfold pymatch
      by_cases h4 : ("---\n".data).isPrefixOf content = true
      · rw [if_pos h4]
        cases hocc : firstOccur (("\n---\n".data)) (content.drop 4) with
        | none => simp only [hocc]
        | some k =>
          exfalso
          have hlen4 : ("---\n".data).length = 4 := rfl
          have hc := isPrefixOf_decompose h4
          rw [hlen4] at hc
          have hdec := firstOccur_decompose hocc
          have hlen5 : ("\n---\n".data).length = 5 := rfl
          rw [hlen5] at hdec
          have hpat : ("\n---\n".data) =
              '\n' :: (("---".data) ++ '\n' :: ([] : PyStr)) := rfl
          have hform : content.drop 4 = (content.drop 4).take k ++
              '\n' :: (("---".data) ++
                '\n' :: (content.drop 4).drop (k + 5)) := by
            conv_lhs => rw [hdec]
            rw [hpat]
            simp
          have hmem : ("---".data) ∈ (splitOnNl (content.drop 4)).tail := by
            rw [hform]
            exact mem_tail_splitOnNl_mid _ _ _ (by decide)
          have hsc : splitOnNl content = ("---".data) :: splitOnNl (content.drop 4) := by
            conv_lhs => rw [hc]
            exact splitOnNl_dashes _
          rcases h with h1 | h2
          · exact h1 (by rw [hsc]; rfl)
          · exact h2 (by rw [hsc, List.tail_cons]; exact List.mem_of_mem_tail hmem)
      · rw [if_neg h4]
    rw [hpm]
  · rw [if_neg h3]

/-- Witness for C5: a file whose frontmatter is never terminated parses to
empty metadata with the whole content as body. -/
theorem claim_C5_witness :
    ((splitOnNl (("---\nkey: value\nno end".data))).head? ≠ some ("---".data) ∨
      ("---".data) ∉ (splitOnNl (("---\nkey: value\nno end".data))).tail) ∧
    parse_frontmatter (("---\nkey: value\nno end".data)) =
      ([], ("---\nkey: value\nno end".data)) :=
  ⟨Or.inr (by decide),
    claim_C5_no_frontmatter_identity _ (Or.inr (by decide))⟩

/-- Looking a key up after an insert: the inserted binding wins on its own
key and is invisible on every other key. -/
theorem dictLookup_dictInsert (k k2 v : PyStr) (m : Dict) :
    dictLookup k (dictInsert k2 v m) =
      if k2 = k then some v else dictLookup k m := by
  induction m with
  | nil => simp [dictInsert, dictLookup]
  | cons kv t ih =>
    obtain ⟨k1, v1⟩ := kv
    by_cases h1 : k1 = k2
    · subst h1
      by_cases h2 : k1 = k
      · subst h2
        simp [dictInsert, dictLookup]
      · simp [dictInsert, dictLookup, h2]
    · by_cases h2 : k2 = k
      · subst h2
        simp [dictInsert, dictLookup, h1, ih]
      · by_cases h4 : k1 = k
        · subst h4
          simp [dictInsert, dictLookup, h1, h2, ih]
        · simp [dictInsert, dictLookup, h1, h2, h4, ih]

/-- The frontmatter fold, looked up at any key, returns the value of the
last line bound to that key, falling back to the starting dict. -/
theorem foldl_meta_lookup (lines : List PyStr) (m : Dict) (k : PyStr) :
    dictLookup k (lines.foldl (fun m2 line =>
        match splitFirst ':' line with
        | some kv => dictInsert (pyStrip kv.1) (pyStrip kv.2) m2
        | none => m2) m) =
      match lastColonValue k lines with
      | some v => some v
      | none => dictLookup k m := by
  induction lines generalizing m with
  | nil => rfl
  | cons line rest ih =>
    rw [List.foldl_cons, ih]
    have hl : lastColonValue k (line :: rest) =
        match lastColonValue k rest with
        | some v => some v
        | none => lineVal k line := rfl
    rw [hl]
    cases hrest : lastColonValue k rest with
    | some v => rfl
    | none =>
      cases hsf : splitFirst ':' line with
      | none => simp [lineVal, hsf]
      | some kv =>
        by_cases heq : pyStrip kv.1 = k <;>
          simp [lineVal, hsf, heq, dictLookup_dictInsert]

/-- The metadata of a frontmatter block, looked up at any key, is the
trimmed value of the last line with that (trimmed) key. -/
theorem parseMetaLines_lookup (ft k : PyStr) :
    dictLookup k (parseMetaLines ft) = lastColonValue k (splitOnNl ft) := by
  unfold parseMetaLines
  rw [foldl_meta_lookup]
  cases h : lastColonValue k (splitOnNl ft) <;> simp [dictLookup]

/-- Claim C1, amended: for content of the shape
`"---\n" ++ ft ++ "\n---\n" ++ body` in which the closing delimiter chosen is
the first one (no occurrence of `"\n---\n"` earlier), `parse_frontmatter`
returns exactly the colon-line dict of `ft` and `body`; the metadata maps
each key to the trimmed value after the first colon of the last line with
that trimmed key, and colon-free lines are skipped.  (The amendment: the
second delimiter line must be followed by a newline, which the claim as
stated does not require.) -/
theorem claim_C1_frontmatter_parse (ft body : PyStr)
    (hmin : firstOccur ("\n---\n".data) (ft ++ ("\n---".data)) = none) :
    parse_frontmatter (("---\n".data) ++ ft ++ ("\n---\n".data) ++ body) =
      (parseMetaLines ft, body) ∧
    ∀ k, dictLookup k (parseMetaLines ft) = lastColonValue k (splitOnNl ft) := by
  refine ⟨?_, fun k => parseMetaLines_lookup ft k⟩
  have hassoc : ("---\n".data) ++ ft ++ ("\n---\n".data) ++ body =
      ("---\n".data) ++ (ft ++ ("\n---\n".data) ++ body) := by
    simp [List.append_assoc]
  have hpre : ("---".data).isPrefixOf
      (("---\n".data) ++ ft ++ ("\n---\n".data) ++ body) = true := by
    rw [hassoc]
    exact isPrefixOf_self_append ("---".data)
      ('\n' :: (ft ++ ("\n---\n".data) ++ body))
  have hpre4 : ("---\n".data).isPrefixOf
      (("---\n".data) ++ ft ++ ("\n---\n".data) ++ body) = true := by
    rw [hassoc]
    exact isPrefixOf_self_append _ _
  have hdrop4 : (("---\n".data) ++ ft ++ ("\n---\n".data) ++ body).drop 4 =
      ft ++ ("\n---\n".data) ++ body := by
    rw [hassoc]
    have h4 : (4 : Nat) = (("---\n".data) : PyStr).length := rfl
    rw [h4, List.drop_left]
  have hocc : firstOccur ("\n---\n".data) (ft ++ ("\n---\n".data) ++ body) =
      some ft.length := by
    have hpat5 : ("\n---\n".data) = ("\n---".data) ++ ['\n'] := rfl
    rw [hpat5] at hmin ⊢
    exact firstOccur_at_append ft body hmin
  have htake : (ft ++ ("\n---\n".data) ++ body).take ft.length = ft := by
    rw [List.append_assoc, List.take_left]
  have hdrop : (ft ++ ("\n---\n".data) ++ body).drop (ft.length + 5) = body := by
    have h5 : ft.length + 5 = (ft ++ ("\n---\n".data)).length := by simp
    rw [h5, List.drop_left]
  have hpm : pymatch (("---\n".data) ++ ft ++ ("\n---\n".data) ++ body) =
      some (ft, body) := by
    unfold pymatch
    rw [if_pos hpre4]
    simp only [hdrop4, hocc, htake, hdrop]
  unfold parse_frontmatter
  rw [if_pos hpre, hpm]

/-- Witness for C1: a two-line frontmatter block (one colon line, one line
without a colon) followed by a body. -/
theorem claim_C1_witness :
    firstOccur ("\n---\n".data) (("title: Hi\njunk line".data) ++ ("\n---".data))
      = none ∧
    parse_frontmatter (("---\n".data) ++ ("title: Hi\njunk line".data) ++
        ("\n---\n".data) ++ ("Body".data)) =
      (parseMetaLines ("title: Hi\njunk line".data), ("Body".data)) ∧
    dictLookup ("title".data) (parseMetaLines ("title: Hi\njunk line".data)) =
      lastColonValue ("title".data) (splitOnNl ("title: Hi\njunk line".data)) :=
  ⟨by decide, (claim_C1_frontmatter_parse _ _ (by decide)).1,
    (claim_C1_frontmatter_parse ("title: Hi\njunk line".data) ("Body".data)
      (by decide)).2 ("title".data)⟩

/-- Counterexample to claim C1 as stated: the content
`"---\ntitle: Hi\n---"` begins with a `---` delimiter line and has a later
line that is exactly `---`, yet `parse_frontmatter` returns empty metadata
(no `title` key) and the whole content as body, because the closing
delimiter is not followed by a newline and the regex requires one. -/
theorem claim_C1_counterexample :
    (splitOnNl ("---\ntitle: Hi\n---".data)).head? = some ("---".data) ∧
    ("---".data) ∈ (splitOnNl ("---\ntitle: Hi\n---".data)).tail ∧
    dictLookup ("title".data)
      (parse_frontmatter ("---\ntitle: Hi\n---".data)).1 = none ∧
    (parse_frontmatter ("---\ntitle: Hi\n---".data)).2 =
      ("---\ntitle: Hi\n---".data) ∧
    (("---\ntitle: Hi\n---".data) : PyStr) ≠ [] := by
  decide

/-- Claim C10: when the regex match succeeds, the metadata binds every key
to the trimmed value of the last frontmatter line with that key — later
occurrences overwrite earlier ones. -/
theorem claim_C10_duplicate_key_last_wins (content ft body k : PyStr)
    (h : pymatch content = some (ft, body)) :
    dictLookup k (parse_frontmatter content).1 =
      lastColonValue k (splitOnNl ft) := by
  have hpre : ("---".data).isPrefixOf content = true := by
    unfold pymatch at h
    by_cases h4 : ("---\n".data).isPrefixOf content = true
    · have hc := isPrefixOf_decompose h4
      have hsplit : ("---\n".data) ++ content.drop (("---\n".data).length) =
          ("---".data) ++ ('\n' :: content.drop (("---\n".data).length)) := rfl
      rw [hc, hsplit]
      exact isPrefixOf_self_append _ _
    · rw [if_neg h4] at h
      cases h
  unfold parse_frontmatter
  rw [if_pos hpre, h]
  exact parseMetaLines_lookup ft k

/-- Witness for C10: the key `a` appears twice; the metadata holds the
trimmed value of the second occurrence. -/
theorem claim_C10_witness :
    pymatch ("---\na: 1\nb: x\na:  2\n---\nB".data) =
      some (("a: 1\nb: x\na:  2".data), ("B".data)) ∧
    dictLookup ("a".data)
      (parse_frontmatter ("---\na: 1\nb: x\na:  2\n---\nB".data)).1 =
      some ("2".data) ∧
    lastColonValue ("a".data) (splitOnNl ("a: 1\nb: x\na:  2".data)) =
      some ("2".data) :=
  ⟨by decide,
    by
      rw [claim_C10_duplicate_key_last_wins _ ("a: 1\nb: x\na:  2".data)
        ("B".data) _ (by decide)]
      decide,
    by decide⟩

/-- Counterexample to claim C2 as stated: `filename.replace('.md', '')`
removes every occurrence of `.md`, not only the suffix; on `"a.md.md"` the
code yields `"a"`, while stripping only the suffix (as the claim says) would
yield `"a.md"`. -/
theorem claim_C2_counterexample :
    get_slug_from_filename ("a.md.md".data) = ("a".data) ∧
    claimSlugC2 ("a.md.md".data) = ("a.md".data) ∧
    get_slug_from_filename ("a.md.md".data) ≠ claimSlugC2 ("a.md.md".data) := by
  decide

/-- Claim C2, amended: `get_slug_from_filename` removes every occurrence of
the substring `.md` (not only the suffix), then returns everything after the
third hyphen of the result when it has at least three hyphens, else the
whole result; in particular `"2025-11-05-first-post.md"` gives
`"first-post"` and `"no-date-prefix.md"` gives `"no-date-prefix"`. -/
theorem claim_C2_slug_rule :
    (∀ filename : PyStr, get_slug_from_filename filename =
        slugOfStem (pyReplace '.' ("md".data) [] filename)) ∧
    get_slug_from_filename ("2025-11-05-first-post.md".data) =
      ("first-post".data) ∧
    get_slug_from_filename ("no-date-prefix.md".data) =
      ("no-date-prefix".data) := by
  refine ⟨fun filename => ?_, by decide, by decide⟩
  exact pySplit_slug_eq (pyReplace '.' ("md".data) [] filename)

set_option maxRecDepth 100000 in
/-- Counterexample to claim C6 as stated: the slug is not interpolated into
the page template; a distinctive slug leaves the output unchanged and never
appears in it. -/
theorem claim_C6_counterexample :
    generate_html_file [] [] [] ("ZZZSLUGZZZ".data) =
      generate_html_file [] [] [] [] ∧
    containsSub ("ZZZSLUGZZZ".data)
      (generate_html_file [] [] [] ("ZZZSLUGZZZ".data)) = false := by
  exact ⟨rfl, by decide⟩

/-- Claim C6, amended: the page renderer is a pure function of
`(title, date, bodyHtml, slug)` that interpolates title, date and bodyHtml
into the fixed page template (the slug parameter is accepted but unused),
and always succeeds on string inputs. -/
theorem claim_C6_page_renderer (title date body_html slug : PyStr) :
    (∃ u v, generate_html_file title date body_html slug = u ++ title ++ v) ∧
    (∃ u v, generate_html_file title date body_html slug = u ++ date ++ v) ∧
    (∃ u v, generate_html_file title date body_html slug =
      u ++ body_html ++ v) ∧
    ∀ slug2, generate_html_file title date body_html slug =
      generate_html_file title date body_html slug2 := by
  refine ⟨⟨tplHead, tplMid1 ++ title ++ tplMid2 ++ date ++ tplMid3 ++
      body_html ++ tplTail, ?_⟩,
    ⟨tplHead ++ title ++ tplMid1 ++ title ++ tplMid2,
      tplMid3 ++ body_html ++ tplTail, ?_⟩,
    ⟨tplHead ++ title ++ tplMid1 ++ title ++ tplMid2 ++ date ++ tplMid3,
      tplTail, ?_⟩,
    fun slug2 => rfl⟩ <;>
  simp [generate_html_file, List.append_assoc]

/-- Claim C9: the output of the page renderer does not depend on the slug
argument at all. -/
theorem claim_C9_output_slug_independent (title date body_html s1 s2 : PyStr) :
    generate_html_file title date body_html s1 =
      generate_html_file title date body_html s2 := rfl

/-- Claim C4: with no markdown files the run writes no HTML file and no
index file; the index is written if and only if the collected post list is
non-empty. -/
theorem claim_C4_empty_source (entries : List (PyStr × PyStr)) :
    (filterMd entries = [] →
      (build_posts entries).htmlFiles = [] ∧
      (build_posts entries).postsJson = none) ∧
    ((build_posts entries).postsJson.isSome ↔
      (build_posts entries).postsList ≠ []) := by
  constructor
  · intro h
    simp [build_posts, h, sortByNameDesc]
  · by_cases h :
      (((sortByNameDesc (filterMd entries)).map processFile).map Prod.snd) = []
    · simp [build_posts, h]
    · simp [build_posts, h]

/-- Witness for C4: a directory with one non-markdown file. -/
theorem claim_C4_witness :
    filterMd [(("readme.txt".data), ("x".data))] = [] ∧
    (build_posts [(("readme.txt".data), ("x".data))]).htmlFiles = [] ∧
    (build_posts [(("readme.txt".data), ("x".data))]).postsJson = none ∧
    ((build_posts [(("readme.txt".data), ("x".data))]).postsJson.isSome ↔
      (build_posts [(("readme.txt".data), ("x".data))]).postsList ≠ []) := by
  have h := claim_C4_empty_source [(("readme.txt".data), ("x".data))]
  exact ⟨by decide, (h.1 (by decide)).1, (h.1 (by decide)).2, h.2⟩

/-- A failed lookup makes `get` return its default. -/
theorem dictGet_eq_default {k : PyStr} {d : Dict} (v : PyStr)
    (h : dictLookup k d = none) : dictGet k d v = v := by
  unfold dictGet
  rw [h]
  rfl

/-- Claim C8: a missing `title` defaults to `Untitled`, a missing `date` and
a missing `description` default to the empty string, in both the record and
the generated page (the dict stored in the index is exactly the record's). -/
theorem claim_C8_missing_key_defaults (name content : PyStr) :
    (dictLookup ("title".data) (parse_frontmatter content).1 = none →
      (recordOf (name, content)).title = ("Untitled".data) ∧
      (processFile (name, content)).1.2 =
        generate_html_file ("Untitled".data)
          (dictGet ("date".data) (parse_frontmatter content).1 [])
          (markdown_markdown (parse_frontmatter content).2)
          (get_slug_from_filename name)) ∧
    (dictLookup ("date".data) (parse_frontmatter content).1 = none →
      (recordOf (name, content)).date = [] ∧
      (processFile (name, content)).1.2 =
        generate_html_file
          (dictGet ("title".data) (parse_frontmatter content).1
            ("Untitled".data))
          [] (markdown_markdown (parse_frontmatter content).2)
          (get_slug_from_filename name)) ∧
    (dictLookup ("description".data) (parse_frontmatter content).1 = none →
      (recordOf (name, content)).description = []) ∧
    (processFile (name, content)).2 = dictOfRecord (recordOf (name, content)) := by
  have hpage : (processFile (name, content)).1.2 =
      generate_html_file
        (dictGet ("title".data) (parse_frontmatter content).1 ("Untitled".data))
        (dictGet ("date".data) (parse_frontmatter content).1 [])
        (markdown_markdown (parse_frontmatter content).2)
        (get_slug_from_filename name) := rfl
  refine ⟨fun h1 => ⟨dictGet_eq_default _ h1, ?_⟩,
    fun h2 => ⟨dictGet_eq_default _ h2, ?_⟩,
    fun h3 => dictGet_eq_default _ h3, rfl⟩
  · rw [hpage, dictGet_eq_default _ h1]
  · rw [hpage, dictGet_eq_default _ h2]

/-- Witness for C8: a file with no frontmatter at all. -/
theorem claim_C8_witness :
    dictLookup ("title".data) (parse_frontmatter ("plain body".data)).1 = none ∧
    dictLookup ("date".data) (parse_frontmatter ("plain body".data)).1 = none ∧
    dictLookup ("description".data)
      (parse_frontmatter ("plain body".data)).1 = none ∧
    (recordOf (("x.md".data), ("plain body".data))).title = ("Untitled".data) ∧
    (recordOf (("x.md".data), ("plain body".data))).date = [] ∧
    (recordOf (("x.md".data), ("plain body".data))).description = [] := by
  have h := claim_C8_missing_key_defaults ("x.md".data) ("plain body".data)
  exact ⟨by decide, by decide, by decide, (h.1 (by decide)).1,
    (h.2.1 (by decide)).1, h.2.2.1 (by decide)⟩

set_option maxRecDepth 400000 in
/-- Claim C7: one post with title `Hello`, date `2025-01-01`, description
`A test` and body `Hello **world**`: the generated page contains the literal
title, the literal date and a bold rendering of `world`; the index record
echoes the frontmatter verbatim with the filename-derived slug. -/
theorem claim_C7_single_post_end_to_end :
    (build_posts [(("2025-01-05-hello-world.md".data),
        ("---\ntitle: Hello\ndate: 2025-01-01\ndescription: A test\n---\nHello **world**".data))]).htmlFiles =
      [(("hello-world.html".data),
        generate_html_file ("Hello".data) ("2025-01-01".data)
          ("<p>Hello <strong>world</strong></p>".data) ("hello-world".data))] ∧
    containsSub ("Hello".data)
      (generate_html_file ("Hello".data) ("2025-01-01".data)
        ("<p>Hello <strong>world</strong></p>".data) ("hello-world".data)) = true ∧
    containsSub ("2025-01-01".data)
      (generate_html_file ("Hello".data) ("2025-01-01".data)
        ("<p>Hello <strong>world</strong></p>".data) ("hello-world".data)) = true ∧
    containsSub ("<strong>world</strong>".data)
      (generate_html_file ("Hello".data) ("2025-01-01".data)
        ("<p>Hello <strong>world</strong></p>".data) ("hello-world".data)) = true ∧
    (build_posts [(("2025-01-05-hello-world.md".data),
        ("---\ntitle: Hello\ndate: 2025-01-01\ndescription: A test\n---\nHello **world**".data))]).postsList =
      [dictOfRecord
        { title := ("Hello".data), date := ("2025-01-01".data),
          slug := get_slug_from_filename ("2025-01-05-hello-world.md".data),
          description := ("A test".data) }] ∧
    get_slug_from_filename ("2025-01-05-hello-world.md".data) =
      ("hello-world".data) := by
  decide

/-- Lexicographic `<` is asymmetric. -/
theorem lexLtB_asymm {a b : PyStr} (h : lexLtB a b = true) :
    lexLtB b a = false := by
  induction a generalizing b with
  | nil =>
    cases b with
    | nil => simp [lexLtB] at h
    | cons y t => simp [lexLtB]
  | cons x s ih =>
    cases b with
    | nil => simp [lexLtB] at h
    | cons y t =>
      simp only [lexLtB] at h ⊢
      by_cases h1 : x.toNat < y.toNat
      · have h2 : ¬ y.toNat < x.toNat := by omega
        simp [h1, h2]
      · by_cases h2 : y.toNat < x.toNat
        · simp [h1, h2] at h
        · simp only [h1, h2, if_false] at h
          simp [h1, h2, ih h]

/-- Two strings with `<` false in both directions are equal. -/
theorem lexLtB_eq_of_not {a b : PyStr} (h1 : lexLtB a b = false)
    (h2 : lexLtB b a = false) : a = b := by
  induction a generalizing b with
  | nil =>
    cases b with
    | nil => rfl
    | cons y t => simp [lexLtB] at h1
  | cons x s ih =>
    cases b with
    | nil => simp [lexLtB] at h2
    | cons y t =>
      simp only [lexLtB] at h1 h2
      by_cases hxy : x.toNat < y.toNat
      · simp [hxy] at h1
      · by_cases hyx : y.toNat < x.toNat
        · simp [hxy, hyx] at h2
        · simp only [hxy, hyx, if_false] at h1 h2
          have hn : x.toNat = y.toNat := by omega
          have hv : x = y := Char.ext (UInt32.ext hn)
          rw [hv, ih h1 h2]

/-- Lexicographic `<` is transitive. -/
theorem lexLtB_trans {a b c : PyStr} (hab : lexLtB a b = true)
    (hbc : lexLtB b c = true) : lexLtB a c = true := by
  induction a generalizing b c with
  | nil =>
    cases c with
    | nil =>
      cases b with
      | nil => simp [lexLtB] at hab
      | cons y t => simp [lexLtB] at hbc
    | cons z u => simp [lexLtB]
  | cons x s ih =>
    cases b with
    | nil => simp [lexLtB] at hab
    | cons y t =>
      cases c with
      | nil => simp [lexLtB] at hbc
      | cons z u =>
        simp only [lexLtB] at hab hbc ⊢
        by_cases hxy : x.toNat < y.toNat
        · by_cases hyz : y.toNat < z.toNat
          · have : x.toNat < z.toNat := by omega
            simp [this]
          · by_cases hzy : z.toNat < y.toNat
            · simp [hxy, hyz, hzy] at hbc
            · have hv : y.toNat = z.toNat := by omega
              have : x.toNat < z.toNat := by omega
              simp [this]
        · by_cases hyx : y.toNat < x.toNat
          · simp [hxy, hyx] at hab
          · have hv : x.toNat = y.toNat := by omega
            simp only [hxy, hyx, if_false] at hab
            by_cases hyz : y.toNat < z.toNat
            · have : x.toNat < z.toNat := by omega
              simp [this]
            · by_cases hzy : z.toNat < y.toNat
              · simp [hyz, hzy] at hbc
              · simp only [hyz, hzy, if_false] at hbc
                have hxz : ¬ x.toNat < z.toNat := by omega
                have hzx : ¬ z.toNat < x.toNat := by omega
                simp [hxz, hzx, ih hab hbc]

/-- A Boolean that is not true is false. -/
theorem bool_eq_false {b : Bool} (h : ¬ b = true) : b = false := by
  cases b
  · rfl
  · exact absurd rfl h

/-- If `a < b` fails then either `b < a` or the strings are equal. -/
theorem lexLtB_connex {a b : PyStr} (h : lexLtB a b = false) :
    lexLtB b a = true ∨ a = b := by
  by_cases hba : lexLtB b a = true
  · exact Or.inl hba
  · exact Or.inr (lexLtB_eq_of_not h (bool_eq_false hba))

/-- Not-less-than is transitive. -/
theorem lexLtB_ge_trans {a b c : PyStr} (h1 : lexLtB a b = false)
    (h2 : lexLtB b c = false) : lexLtB a c = false := by
  by_cases hac : lexLtB a c = true
  · rcases lexLtB_connex h1 with hba | rfl
    · have := lexLtB_trans hba hac
      rw [this] at h2
      cases h2
    · rw [hac] at h2
      cases h2
  · exact bool_eq_false hac

/-- Inserting keeps exactly the old elements plus the new one. -/
theorem insertByNameDesc_perm (x : PyStr × PyStr) (l : List (PyStr × PyStr)) :
    (insertByNameDesc x l).Perm (x :: l) := by
  induction l with
  | nil => exact List.Perm.refl _
  | cons y t ih =>
    simp only [insertByNameDesc]
    by_cases h : lexLtB y.1 x.1 = true
    · rw [if_pos h]
    · rw [if_neg h]
      exact (ih.cons y).trans (List.Perm.swap x y t)

/-- Sorting is a permutation of the input. -/
theorem sortByNameDesc_perm (l : List (PyStr × PyStr)) :
    (sortByNameDesc l).Perm l := by
  induction l with
  | nil => exact List.Perm.refl _
  | cons x t ih => exact (insertByNameDesc_perm x (sortByNameDesc t)).trans (ih.cons x)

/-- Inserting into a descending-sorted list keeps it descending-sorted
(elements pairwise not-less-than the later ones, by filename). -/
theorem insertByNameDesc_pairwise {x : PyStr × PyStr}
    {l : List (PyStr × PyStr)}
    (h : l.Pairwise (fun a b => lexLtB a.1 b.1 = false)) :
    (insertByNameDesc x l).Pairwise (fun a b => lexLtB a.1 b.1 = false) := by
  induction l with
  | nil => simp [insertByNameDesc]
  | cons y t ih =>
    rw [List.pairwise_cons] at h
    obtain ⟨hy, ht⟩ := h
    simp only [insertByNameDesc]
    by_cases hc : lexLtB y.1 x.1 = true
    · rw [if_pos hc]
      refine List.pairwise_cons.2 ⟨?_, List.pairwise_cons.2 ⟨hy, ht⟩⟩
      intro z hz
      rcases List.mem_cons.1 hz with rfl | hz2
      · exact lexLtB_asymm hc
      · exact lexLtB_ge_trans (lexLtB_asymm hc) (hy z hz2)
    · rw [if_neg hc]
      refine List.pairwise_cons.2 ⟨?_, ih ht⟩
      intro z hz
      have hz2 := (insertByNameDesc_perm x t).mem_iff.1 hz
      rcases List.mem_cons.1 hz2 with rfl | hz3
      · exact bool_eq_false hc
      · exact hy z hz3

/-- The sorted list is descending: every element is not-less-than every
later one, by filename. -/
theorem sortByNameDesc_pairwise (l : List (PyStr × PyStr)) :
    (sortByNameDesc l).Pairwise (fun a b => lexLtB a.1 b.1 = false) := by
  induction l with
  | nil => simp [sortByNameDesc]
  | cons x t ih => exact insertByNameDesc_pairwise ih

/-- With distinct filenames the sort is strictly descending. -/
theorem sortByNameDesc_pairwise_strict (l : List (PyStr × PyStr))
    (hnd : (l.map Prod.fst).Nodup) :
    (sortByNameDesc l).Pairwise (fun a b => lexLtB b.1 a.1 = true) := by
  have hperm : ((sortByNameDesc l).map Prod.fst).Perm (l.map Prod.fst) :=
    (sortByNameDesc_perm l).map Prod.fst
  have hnd2 : ((sortByNameDesc l).map Prod.fst).Nodup := hperm.nodup_iff.2 hnd
  have hne : (sortByNameDesc l).Pairwise (fun a b => a.1 ≠ b.1) :=
    List.pairwise_map.1 hnd2
  have hge := sortByNameDesc_pairwise l
  refine ((hge.and hne).imp ?_)
  intro a b hab
  rcases lexLtB_connex hab.1 with hba | he
  · exact hba
  · exact absurd he hab.2

/-- One index object as rendered by the json dumper on the dict the build
stores equals the spec's fixed four-field object. -/
theorem obj_record_eq (r : PostRecord) :
    ("  ".data) ++ jsonObjAt 2 (dictOfRecord r) = specObjLines r := by
  simp [jsonObjAt, dictOfRecord, specObjLines, specFieldLine,
    List.intercalate, List.intersperse]

/-- The text written to `posts.json` for the dicts the build stores is
exactly the spec's index layout for the corresponding records. -/
theorem generate_posts_json_spec (rs : List PostRecord) (h : rs ≠ []) :
    generate_posts_json (rs.map dictOfRecord) = specIndexJson rs := by
  unfold generate_posts_json specIndexJson
  rw [if_neg (by simpa using h), List.map_map]
  have hf : ((fun d => ("  ".data) ++ jsonObjAt 2 d) ∘ dictOfRecord) =
      specObjLines := funext fun r => obj_record_eq r
  rw [hf]

/-- Claim C3: with at least one post, the aggregate index is written and is
the spec's JSON array (2-space indented, objects with exactly the fields
title, date, slug, description in that order), one object per post, in
processing order, which is strictly descending filename order when the
filenames are distinct. -/
theorem claim_C3_index_layout_and_order (entries : List (PyStr × PyStr))
    (h : filterMd entries ≠ []) :
    (build_posts entries).postsJson =
      some (specIndexJson ((sortByNameDesc (filterMd entries)).map recordOf)) ∧
    (build_posts entries).postsList =
      ((sortByNameDesc (filterMd entries)).map recordOf).map dictOfRecord ∧
    (((filterMd entries).map Prod.fst).Nodup →
      (sortByNameDesc (filterMd entries)).Pairwise
        (fun f g => lexLtB g.1 f.1 = true)) := by
  have hsne : sortByNameDesc (filterMd entries) ≠ [] := by
    intro he
    have hl := (sortByNameDesc_perm (filterMd entries)).length_eq
    rw [he] at hl
    exact h (List.length_eq_zero.1 hl.symm)
  have hpl : ((sortByNameDesc (filterMd entries)).map processFile).map Prod.snd
      = ((sortByNameDesc (filterMd entries)).map recordOf).map dictOfRecord := by
    rw [List.map_map, List.map_map]
    exact List.map_congr_left (fun f _ => rfl)
  have hrs : (sortByNameDesc (filterMd entries)).map recordOf ≠ [] := by
    simpa using hsne
  have hjson : (build_posts entries).postsJson =
      (if ((sortByNameDesc (filterMd entries)).map processFile).map Prod.snd
          = ([] : List Dict) then none
        else some (generate_posts_json
          (((sortByNameDesc (filterMd entries)).map processFile).map
            Prod.snd))) := rfl
  refine ⟨?_, hpl, fun hnd => sortByNameDesc_pairwise_strict _ hnd⟩
  rw [hjson, hpl, if_neg (by simpa using hrs),
    generate_posts_json_spec _ hrs]

/-- Concrete directory for the C3 witness: three markdown files whose sorted
order differs from both the given order and the ascending order, plus one
non-markdown file that the glob ignores. -/
def c3WitnessEntries : List (PyStr × PyStr) :=
  [(("2025-01-02-b.md".data), ("---\ntitle: B\n---\nbb".data)),
   (("notes.txt".data), ("not a post".data)),
   (("2025-01-10-a.md".data),
     ("---\ntitle: A\ndate: D\ndescription: X\n---\naa".data)),
   (("2024-12-31-c.md".data), ("c body".data))]

/-- Witness for C3: on three non-trivially-ordered posts, the index is
written with the spec layout, and the processing order is strictly
descending by filename. -/
theorem claim_C3_witness :
    filterMd c3WitnessEntries ≠ [] ∧
    ((filterMd c3WitnessEntries).map Prod.fst).Nodup ∧
    (sortByNameDesc (filterMd c3WitnessEntries)).map Prod.fst =
      [("2025-01-10-a.md".data), ("2025-01-02-b.md".data),
       ("2024-12-31-c.md".data)] ∧
    (build_posts c3WitnessEntries).postsJson =
      some (specIndexJson
        ((sortByNameDesc (filterMd c3WitnessEntries)).map recordOf)) ∧
    (sortByNameDesc (filterMd c3WitnessEntries)).Pairwise
      (fun f g => lexLtB g.1 f.1 = true) :=
  ⟨by decide, by decide, by decide,
    (claim_C3_index_layout_and_order c3WitnessEntries (by decide)).1,
    (claim_C3_index_layout_and_order c3WitnessEntries (by decide)).2.2
      (by decide)⟩

end BuildPosts
